import Mathlib

/-!
A verification development for the GDrive Stremio addon (src/index.js,
v1.1.4).  The JavaScript source is shallowly embedded: pure helpers become
Lean functions, the stateful token cache becomes explicit state passing,
fallible operations return `Except Unit`, and the remote HTTP world
(Drive API, token endpoint, Redis cache) is supplied to each handler as an
explicit oracle argument.  Instants are integer milliseconds
(`Date.now()`); JSON payloads are a small inductive value universe.
Floating-point size formatting (`fmtSize`, which uses `toFixed`) is not
shallowly embeddable and is passed as an abstract `fmt` parameter that
every theorem quantifies over.
-/

/-! ## Remote file nodes (Drive API `files` resources)

Fields that the handlers read.  Optional fields model JavaScript
`undefined`: the Drive API only returns the fields named in the query's
projection. -/

structure FileNode where
  id : String
  name : String
  mimeType : Option String
  size : Option String
  createdTime : Option String
  thumbnailLink : Option String
deriving DecidableEq, Repr

/-- `const FOLDER_MIME = "application/vnd.google-apps.folder"` -/
def FOLDER_MIME : String := "application/vnd.google-apps.folder"

/-- `file.mimeType === FOLDER_MIME` -/
def isFolderNode (f : FileNode) : Bool := f.mimeType == some FOLDER_MIME

/-- `pre` is an initial segment of the second list (structural, so that
concrete instances compute by `rfl`/`decide`). -/
def charsStartWith : List Char → List Char → Bool
  | [], _ => true
  | _ :: _, [] => false
  | p :: ps, c :: cs => p = c ∧ charsStartWith ps cs

/-- `s.startsWith(pre)`. -/
def strStartsWith (s pre : String) : Bool := charsStartWith pre.toList s.toList

/-- `s.split(c)`: splits at *every* occurrence of the character. -/
def splitChar (c : Char) : List Char → List (List Char)
  | [] => [[]]
  | x :: xs =>
    let r := splitChar c xs
    if x = c then [] :: r
    else
      match r with
      | h :: t => (x :: h) :: t
      | [] => [[x]]

/-- `f.mimeType && f.mimeType.startsWith('video/')` (handleMeta line 250). -/
def isVideoFile (f : FileNode) : Bool :=
  match f.mimeType with
  | some m => strStartsWith m "video/"
  | none => false

/-- JavaScript truthiness of an optional string: `undefined`, `null` and
`""` are falsy. -/
def optTruthy : Option String → Bool
  | none => false
  | some s => s ≠ ""

/-! ## `String.prototype.replace(/=s\d+/, "=s" + size)`

Used for thumbnail resizing.  JavaScript `replace` with a non-global
regex rewrites only the leftmost match; `\d+` is greedy.  The scanner
below walks the characters left to right and splices in the replacement
at the first position that starts `=s<digit>`. -/

def replSizeAux (size : List Char) : List Char → List Char
  | [] => []
  | c :: rest =>
    if c = '=' ∧ rest.headD ' ' = 's' ∧ ((rest.tailD []).headD ' ').isDigit then
      '=' :: 's' :: (size ++ (rest.tailD []).dropWhile Char.isDigit)
    else
      c :: replSizeAux size rest

/-- `s.replace(/=s\d+/, "=s" + size)` -/
def thumbReplace (s : String) (size : String) : String :=
  String.mk (replSizeAux size.toList s.toList)

/-! ## `parseSeasonEpisode` (index.js lines 141-153)

```js
const patterns = [
    /S(\d{1,2})[._ ]?E(\d{1,3})/i, /Season[._ ]?(\d{1,2})[._ ]?Episode[._ ]?(\d{1,3})/i,
    /(\d{1,2})x(\d{1,3})/i, /\[(\d{1,2})\.(\d{1,3})\]/i,
];
for (const pattern of patterns) {
    const match = name.match(pattern);
    if (match) return { season: parseInt(match[1]), episode: parseInt(match[2]) };
}
const simpleMatch = name.match(/^(\d{1,3})[._ ]/);
if (simpleMatch) return { season: 1, episode: parseInt(simpleMatch[1]) };
return null;
```

JavaScript regex semantics are reproduced explicitly: the leftmost
position wins, bounded quantifiers are greedy with backtracking, and
`/i` compares letters case-insensitively.  Each pattern is an anchored
matcher (`...At`) tried at every suffix by `scanPos`. -/

/-- Character class `[._ ]`. -/
def isSepChar (c : Char) : Bool := c = '.' ∨ c = '_' ∨ c = ' '

/-- Case-insensitive character comparison (regex `/i` flag, ASCII letters). -/
def charCI (a b : Char) : Bool := a.toLower = b.toLower

/-- `parseInt` on a captured digit string. -/
def digitsToNat (ds : List Char) : Nat :=
  ds.foldl (fun a c => a * 10 + (c.toNat - 48)) 0

/-- Candidate ways to match `\d{1,maxLen}` at the head of `l`, greedy
order (longest capture first).  Each candidate is (captured digits,
rest of input). -/
def digitSplits (maxLen : Nat) (l : List Char) : List (List Char × List Char) :=
  let run := l.takeWhile Char.isDigit
  let n := min maxLen run.length
  (List.range n).map (fun j => (run.take (n - j), l.drop (n - j)))

/-- First alternative (in order) on which `f` succeeds: the backtracking
engine's disjunction. -/
def firstSome {α β : Type} (f : α → Option β) : List α → Option β
  | [] => none
  | a :: as =>
    match f a with
    | some b => some b
    | none => firstSome f as

/-- Candidate continuations for `[._ ]?`: consume a separator if one is
there (greedy), else proceed without. -/
def optSepCandidates (l : List Char) : List (List Char) :=
  match l with
  | c :: rest => if isSepChar c then [rest, c :: rest] else [c :: rest]
  | [] => [[]]

/-- Case-insensitive literal match, returning the rest of the input. -/
def matchLitCI : List Char → List Char → Option (List Char)
  | [], l => some l
  | _ :: _, [] => none
  | p :: ps, c :: cs => if charCI c p then matchLitCI ps cs else none

/-- `/S(\d{1,2})[._ ]?E(\d{1,3})/i` anchored at the head of `l`. -/
def p1At (l : List Char) : Option (Nat × Nat) :=
  match l with
  | [] => none
  | c :: rest =>
    if charCI c 'S' then
      firstSome (fun sd =>
        firstSome (fun afterSep =>
          match afterSep with
          | e :: r3 =>
            if charCI e 'E' then
              firstSome (fun ed => some (digitsToNat sd.1, digitsToNat ed.1))
                (digitSplits 3 r3)
            else none
          | [] => none)
          (optSepCandidates sd.2))
        (digitSplits 2 rest)
    else none

/-- `/Season[._ ]?(\d{1,2})[._ ]?Episode[._ ]?(\d{1,3})/i` anchored. -/
def p2At (l : List Char) : Option (Nat × Nat) :=
  match matchLitCI ("Season".toList) l with
  | none => none
  | some r1 =>
    firstSome (fun r2 =>
      firstSome (fun sd =>
        firstSome (fun r4 =>
          match matchLitCI ("Episode".toList) r4 with
          | none => none
          | some r5 =>
            firstSome (fun r6 =>
              firstSome (fun ed => some (digitsToNat sd.1, digitsToNat ed.1))
                (digitSplits 3 r6))
              (optSepCandidates r5))
          (optSepCandidates sd.2))
        (digitSplits 2 r2))
      (optSepCandidates r1)

/-- `/(\d{1,2})x(\d{1,3})/i` anchored. -/
def p3At (l : List Char) : Option (Nat × Nat) :=
  firstSome (fun sd =>
    match sd.2 with
    | x :: r2 =>
      if charCI x 'X' then
        firstSome (fun ed => some (digitsToNat sd.1, digitsToNat ed.1))
          (digitSplits 3 r2)
      else none
    | [] => none)
    (digitSplits 2 l)

/-- `/\[(\d{1,2})\.(\d{1,3})\]/i` anchored. -/
def p4At (l : List Char) : Option (Nat × Nat) :=
  match l with
  | '[' :: r1 =>
    firstSome (fun sd =>
      match sd.2 with
      | '.' :: r2 =>
        firstSome (fun ed =>
          match ed.2 with
          | ']' :: _ => some (digitsToNat sd.1, digitsToNat ed.1)
          | _ => none)
          (digitSplits 3 r2)
      | _ => none)
      (digitSplits 2 r1)
  | _ => none

/-- Unanchored search: try the anchored matcher at each position, leftmost
first (`String.prototype.match` with a non-anchored regex). -/
def scanPos (f : List Char → Option (Nat × Nat)) : List Char → Option (Nat × Nat)
  | [] => f []
  | c :: rest =>
    match f (c :: rest) with
    | some r => some r
    | none => scanPos f rest

/-- `/^(\d{1,3})[._ ]/` — anchored at the start only. -/
def leadingEpisode (l : List Char) : Option Nat :=
  firstSome (fun sd =>
    match sd.2 with
    | c :: _ => if isSepChar c then some (digitsToNat sd.1) else none
    | [] => none)
    (digitSplits 3 l)

/-- `parseSeasonEpisode(name)` — the four patterns in priority order, then
the leading-number fallback, else `null`. -/
def parseSeasonEpisode (name : String) : Option (Nat × Nat) :=
  match scanPos p1At name.toList with
  | some r => some r
  | none =>
  match scanPos p2At name.toList with
  | some r => some r
  | none =>
  match scanPos p3At name.toList with
  | some r => some r
  | none =>
  match scanPos p4At name.toList with
  | some r => some r
  | none =>
  match leadingEpisode name.toList with
  | some e => some (1, e)
  | none => none


/-! ## Series video entries (handleMeta, lines 250-267)

```js
const videos = allContents.filter(f => f.mimeType && f.mimeType.startsWith('video/'));
...
videos: videos.map((file, index) => {
    const parsed = parseSeasonEpisode(file.name);
    return {
        id: `gdrive:${file.id}`,
        title: file.name,
        season: parsed ? parsed.season : 1,
        episode: parsed ? parsed.episode : index + 1,
        released: file.createdTime,
        thumbnail: file.thumbnailLink ? file.thumbnailLink.replace(/=s\d+/, '=s400') : null,
    };
}).sort((a, b) => a.season - b.season || a.episode - b.episode)
```

`Array.prototype.sort` is stable (ES2019); the comparator orders
ascending by `(season, episode)`.  A stable insertion sort reproduces
that. -/

structure Video where
  id : String
  title : String
  season : Nat
  episode : Nat
  released : Option String
  thumbnail : Option String
deriving DecidableEq, Repr

/-- One element of the `videos.map((file, index) => ...)` callback. -/
def mkVideo (f : FileNode) (index : Nat) : Video :=
  { id := "gdrive:" ++ f.id
    title := f.name
    season := match parseSeasonEpisode f.name with | some p => p.1 | none => 1
    episode := match parseSeasonEpisode f.name with | some p => p.2 | none => index + 1
    released := f.createdTime
    thumbnail := match f.thumbnailLink with
      | some t => if t ≠ "" then some (thumbReplace t "400") else none
      | none => none }

/-- Strict `(season, episode)` order of the JS comparator
`a.season - b.season || a.episode - b.episode`. -/
def vidKeyLt (a b : Video) : Bool :=
  a.season < b.season ∨ (a.season = b.season ∧ a.episode < b.episode)

/-- Stable insertion: an element goes in front of the first strictly
greater one, after every element with an equal or smaller key. -/
def insertVideo (v : Video) : List Video → List Video
  | [] => [v]
  | w :: ws => if vidKeyLt v w then v :: w :: ws else w :: insertVideo v ws

/-- Stable ascending sort by `(season, episode)`. -/
def sortVideos (l : List Video) : List Video :=
  l.foldl (fun acc v => insertVideo v acc) []

/-- The whole `videos:` expression: filter the folder's direct contents to
videos, map with position, sort. -/
def seriesVideos (cs : List FileNode) : List Video :=
  sortVideos ((cs.filter isVideoFile).enum.map (fun p => mkVideo p.2 p.1))

/-! ## Cache layer (kvCache with per-call try/catch)

The Upstash client is polymorphic in the stored value.  `Except Unit`
models a call that may throw; `tryGet` is the source's
`try { const cached = await kvCache.get(k); ... } catch (e) { ... }`
pattern, which degrades any backend failure to a miss.  Set attempts are
likewise wrapped in try/catch at every call site; handlers record them
as events so the theorems can talk about what was attempted. -/

structure CacheBackend (V : Type) where
  get : String → Except Unit (Option V)
  set : String → V → Nat → Except Unit Unit

/-- A backend whose every operation throws. -/
def throwingCache (V : Type) : CacheBackend V :=
  { get := fun _ => .error (), set := fun _ _ _ => .error () }

/-- A backend that always misses and accepts writes silently (the mock
in-memory fallback `{ get: async () => null, set: async () => {} }`). -/
def nullCache (V : Type) : CacheBackend V :=
  { get := fun _ => .ok none, set := fun _ _ _ => .ok () }

/-- Guarded read: a thrown backend error is caught and observed as a
miss. -/
def tryGet {V : Type} (c : CacheBackend V) (k : String) : Option V :=
  match c.get k with
  | .error _ => none
  | .ok v => v

/-- Guarded write: a thrown backend error is caught; either way the
handler continues. -/
def trySet {V : Type} (c : CacheBackend V) (k : String) (v : V) (ttl : Nat) : Unit :=
  match c.set k v ttl with
  | .error _ => ()
  | .ok _ => ()

/-- Cache/network effects a handler performs, in program order. -/
inductive CacheEvent
  | cacheGet (key : String)
  | netList
  | cacheSet (key : String)
deriving DecidableEq, Repr

/-! ## Catalog handler (handleCatalog, lines 182-227) -/

/-- `fileToMeta` (lines 155-162).  `fmt` abstracts the floating-point
`fmtSize`. -/
structure MetaPreview where
  id : String
  mtype : String
  name : String
  poster : Option String
  posterShape : String
  description : String
deriving DecidableEq, Repr

def imgFallback : String := "https://i.imgur.com/G4A4B1a.png"

def fileToMeta (fmt : Option String → String) (f : FileNode) : MetaPreview :=
  { id := if isFolderNode f then "gdrive-folder:" ++ f.id else "gdrive:" ++ f.id
    mtype := if isFolderNode f then "series" else "movie"
    name := f.name
    poster := match f.thumbnailLink with
      | some t =>
        if t ≠ "" then some (thumbReplace t "400")
        else if isFolderNode f then some imgFallback else none
      | none => if isFolderNode f then some imgFallback else none
    posterShape := "poster"
    description := if isFolderNode f then "" else "Size: " ++ fmt f.size }

/-- `search.replace(/[^a-zA-Z0-9]/g, '')` -/
def cleanSearchOf (search : Option String) : String :=
  String.mk ((search.getD "").toList.filter (fun c =>
    ('a' ≤ c ∧ c ≤ 'z') ∨ ('A' ≤ c ∧ c ≤ 'Z') ∨ ('0' ≤ c ∧ c ≤ '9')))

/-- `` `catalog:${cleanSearch ? `search-${cleanSearch}` : id}` `` -/
def catalogCacheKey (id : String) (search : Option String) : String :=
  "catalog:" ++ (if cleanSearchOf search ≠ "" then "search-" ++ cleanSearchOf search else id)

/-- Whether the handler reaches a `listAllFiles` call: a truthy `search`,
the recents catalog, or a folder id. -/
def catalogDoesNet (id : String) (search : Option String) : Bool :=
  optTruthy search ∨ id = "gdrive_recents" ∨
    strStartsWith id "gdrive-root:" ∨ strStartsWith id "gdrive-folder:"

inductive CatResponse
  | metas (xs : List MetaPreview)
  | serverError
deriving DecidableEq, Repr

structure CatalogOutcome where
  resp : CatResponse
  events : List CacheEvent
deriving DecidableEq, Repr

/-- `handleCatalog`.  The listing oracle is the result of the (single)
`listAllFiles` call the reached branch would make; `.error` is a thrown
listing failure, caught by the `try` around the branch and answered with
a 500.  All cache accesses are guarded. -/
def handleCatalog (cache : CacheBackend (List MetaPreview)) (fmt : Option String → String)
    (listing : Except Unit (List FileNode)) (id : String) (search : Option String) :
    CatalogOutcome :=
  let key := catalogCacheKey id search
  match tryGet cache key with
  | some cached => ⟨.metas cached, [.cacheGet key]⟩
  | none =>
    if catalogDoesNet id search then
      match listing with
      | .error _ => ⟨.serverError, [.cacheGet key, .netList]⟩
      | .ok files =>
        let metas := files.map (fileToMeta fmt)
        if metas.length > 0 then
          let _ := trySet cache key metas 300
          ⟨.metas metas, [.cacheGet key, .netList, .cacheSet key]⟩
        else ⟨.metas metas, [.cacheGet key, .netList]⟩
    else ⟨.metas [], [.cacheGet key]⟩

/-! ## Meta handler (handleMeta, lines 229-283)

The folder branch fetches the folder record and its direct children
(`'${itemId}' in parents`) in parallel; an exception from either
`gjson`/`listAllFiles` call is not caught and rejects the handler
(`.error`).  Cache get/set are guarded per-call.  `FolderInfo` is the
`id,name` projection of the folder record. -/

structure FolderInfo where
  id : String
  name : String
deriving DecidableEq, Repr

inductive MetaVal
  | seriesMeta (id name : String) (poster : String) (background : Option String)
      (videos : List Video)
  | movieMeta (id name : String) (poster : Option String) (background : Option String)
      (description : String)
deriving DecidableEq, Repr

def MetaVal.videosOf : MetaVal → List Video
  | .seriesMeta _ _ _ _ vs => vs
  | .movieMeta _ _ _ _ _ => []

inductive MetaResponse
  | notFound
  | found (m : MetaVal)
deriving DecidableEq, Repr

/-- `id.split(':')[1]` followed by the `if (!itemId)` truthiness check. -/
def metaItemId (id : String) : Option String :=
  match (splitChar ':' id.toList).get? 1 with
  | none => none
  | some s => if s = [] then none else some (String.mk s)

/-- `videos.find(v => v.thumbnailLink)` and its `thumbnailLink`. -/
def firstThumb (videos : List FileNode) : Option String :=
  match videos.find? (fun v => optTruthy v.thumbnailLink) with
  | some v => v.thumbnailLink
  | none => none

/-- The series meta object built in the folder branch (lines 253-268). -/
def seriesMetaFor (id name : String) (cs : List FileNode) : MetaVal :=
  let videos := cs.filter isVideoFile
  .seriesMeta id name
    (match firstThumb videos with
     | some t => thumbReplace t "400"
     | none => imgFallback)
    ((firstThumb videos).map (fun t => thumbReplace t "1280"))
    (seriesVideos cs)

/-- `handleMeta`.  Oracles: `folderFetch` is the
`gjson(API.DRIVE_FILE(itemId, "id,name"))` result, `contents` the
`listAllFiles({q: '<itemId>' in parents ...})` result and `fileFetch` the
movie-branch `gjson(API.DRIVE_FILE(itemId, ...))` result; `.error` means
that call rejected.  The result pairs the HTTP answer with the
cache-event trace. -/
def handleMeta (cache : CacheBackend MetaVal) (fmt : Option String → String)
    (folderFetch : Except Unit (Option FolderInfo))
    (contents : Except Unit (List FileNode))
    (fileFetch : Except Unit (Option FileNode))
    (id : String) : Except Unit (MetaResponse × List CacheEvent) :=
  let isFolder := strStartsWith id "gdrive-folder:" ∨ strStartsWith id "gdrive-root:"
  let key := "meta:" ++ id
  match metaItemId id with
  | none => .ok (.notFound, [])
  | some _ =>
    match tryGet cache key with
    | some m => .ok (.found m, [.cacheGet key])
    | none =>
      if isFolder then
        match folderFetch, contents with
        | .error e, _ => .error e
        | .ok _, .error e => .error e
        | .ok none, .ok _ => .ok (.notFound, [.cacheGet key])
        | .ok (some folder), .ok cs =>
          let meta := seriesMetaFor id folder.name cs
          let _ := trySet cache key meta 1800
          .ok (.found meta, [.cacheGet key, .cacheSet key])
      else
        match fileFetch with
        | .error e => .error e
        | .ok none => .ok (.notFound, [.cacheGet key])
        | .ok (some f) =>
          let meta := MetaVal.movieMeta id f.name f.thumbnailLink
            (match f.thumbnailLink with
             | some t => if t ≠ "" then some (thumbReplace t "1280") else none
             | none => none)
            ("Size: " ++ fmt f.size)
          let _ := trySet cache key meta 1800
          .ok (.found meta, [.cacheGet key, .cacheSet key])

/-- Serving a series meta request for folder `rootId` against a concrete
folder tree `drive` (folder id ↦ direct children in the API's name
order): the source's `listAllFiles` query asks only for
`'${rootId}' in parents`, so the contents oracle is exactly
`drive rootId` — nothing below the direct children is ever requested. -/
def runSeriesMeta (fmt : Option String → String) (drive : String → List FileNode)
    (rootId rootName : String) : Except Unit (MetaResponse × List CacheEvent) :=
  handleMeta (nullCache MetaVal) fmt (.ok (some ⟨rootId, rootName⟩))
    (.ok (drive rootId)) (.ok none) ("gdrive-folder:" ++ rootId)

/-! ## Token broker (getAccessToken, lines 60-91)

```js
let accessTokenCache = { token: null, exp: 0 };
async function getAccessToken() {
    if (accessTokenCache.token && Date.now() < accessTokenCache.exp) {
        return accessTokenCache.token;
    }
    try {
        const response = await fetch(API.TOKEN, {...});
        const data = await response.json();
        if (!response.ok) throw new Error(data.error_description || 'Failed to refresh token');
        accessTokenCache = {
            token: data.access_token,
            exp: Date.now() + ((data.expires_in || 3599) * 1000) - 60000
        };
        return accessTokenCache.token;
    } catch (error) {
        accessTokenCache = { token: null, exp: 0 };
        throw error;
    }
}
```

State passing is explicit; `now` is `Date.now()` in ms; the token
endpoint's behaviour during one refresh is a `RefreshOutcome`. -/

structure TokenCache where
  token : Option String
  exp : Int
deriving DecidableEq, Repr

inductive RefreshOutcome
  | throws
  | httpError
  | success (tok : String) (expiresIn : Option Int)
deriving DecidableEq, Repr

/-- `(data.expires_in || 3599)`: an absent or zero (falsy) `expires_in`
falls back to 3599. -/
def effectiveLifetime : Option Int → Int
  | none => 3599
  | some v => if v = 0 then 3599 else v

/-- The refresh attempt: a non-ok response throws (and is caught below),
any throw resets the cache to `{ token: null, exp: 0 }` and rethrows;
success stores the token with the 60-second margin subtracted. -/
def doRefresh (now : Int) : RefreshOutcome → Except Unit String × TokenCache
  | .throws => (.error (), ⟨none, 0⟩)
  | .httpError => (.error (), ⟨none, 0⟩)
  | .success tok e => (.ok tok, ⟨some tok, now + effectiveLifetime e * 1000 - 60000⟩)

/-- `accessTokenCache.token && Date.now() < accessTokenCache.exp` -/
def canReuse (now : Int) (st : TokenCache) : Bool :=
  match st.token with
  | some t => t ≠ "" ∧ now < st.exp
  | none => false

/-- `getAccessToken` as a state transition: result and new cache. -/
def getAccessToken (now : Int) (st : TokenCache) (r : RefreshOutcome) :
    Except Unit String × TokenCache :=
  if canReuse now st then (.ok (st.token.getD ""), st) else doRefresh now r

/-! ## API client (gjson, lines 100-112)

```js
async function gjson(url) {
    try {
        const r = await withAuthFetch(url);
        if (!r.ok) { console.error(...); return null; }
        return r.json();
    } catch (e) { console.error(...); return null; }
}
```

`withAuthFetch` awaits `getAccessToken` and then `fetch`; a rejection of
either surfaces at the `await` inside gjson's `try` and is caught.  The
final `return r.json()` is *not* awaited, so a body that fails to parse
on a 2xx response rejects gjson itself (the known async/return pitfall);
this is modelled as `.error`.  The trace counts Drive requests issued and
any sleeps performed (the code has none: on any status it returns at
once, neither retrying nor reading `Retry-After`). -/

inductive Json
  | null
  | bool (b : Bool)
  | num (n : Int)
  | str (s : String)
  | arr (elems : List Json)
  | obj (fields : List (String × Json))

/-- One possible behaviour of `fetch` for one attempt: a thrown transport
error, or a response with status, headers and parsed body (`none` when
`r.json()` would reject). -/
inductive FetchOutcome
  | throws
  | resp (status : Nat) (headers : List (String × String)) (body : Option Json)

structure CallTrace where
  result : Except Unit Json
  requests : Nat
  waits : List Nat

/-- `gjson`: `auth` is the `getAccessToken` outcome, `os n` the behaviour
of the n-th `fetch` the client would issue (the code only ever issues
`os 0`). -/
def gjson (auth : Except Unit String) (os : Nat → FetchOutcome) : CallTrace :=
  match auth with
  | .error _ => ⟨.ok Json.null, 0, []⟩
  | .ok _ =>
    match os 0 with
    | .throws => ⟨.ok Json.null, 1, []⟩
    | .resp status _ body =>
      if 200 ≤ status ∧ status ≤ 299 then
        match body with
        | none => ⟨.error (), 1, []⟩
        | some j => ⟨.ok j, 1, []⟩
      else ⟨.ok Json.null, 1, []⟩

/-! ## Pagination lister (listAllFiles, lines 114-135)

```js
let allFiles = [];
let pageToken = null;
do {
    ...
    const data = await gjson(url.toString());
    if (!data || !data.files) break;
    allFiles.push(...data.files);
    pageToken = data.nextPageToken;
} while (pageToken);
return allFiles;
```

The interaction transcript is the finite list of per-page `gjson`
results: `none` is a null page (API error), a `ListPage` mirrors the
`files` / `nextPageToken` fields (each possibly absent).  An exhausted
transcript behaves like a null page. -/

structure ListPage where
  files : Option (List FileNode)
  nextPageToken : Option String
deriving DecidableEq, Repr

def listAllLoop : List (Option ListPage) → List FileNode → List FileNode
  | [], acc => acc
  | o :: rest, acc =>
    match o with
    | none => acc
    | some d =>
      match d.files with
      | none => acc
      | some fs =>
        match d.nextPageToken with
        | some t => if t = "" then acc ++ fs else listAllLoop rest (acc ++ fs)
        | none => acc ++ fs

def listAllFiles (transcript : List (Option ListPage)) : List FileNode :=
  listAllLoop transcript []

/-! ## Credential pool (C2)

Modelled from the spec: the multi-identity credential pool
(`acquire(count)` over the `SERVICE_ACCOUNTS` array with a rotation
cursor, §4.1 of the spec) is code of this repository that is not under
`src/` — the bundled README refers to the `SERVICE_ACCOUNTS` array of an
index.js revision not included here, and `src/index.js` v1.1.4 only has
the single-identity `getAccessToken`.  Following the spec's words: for
each of the `count` requested identities, wrapping from the current
rotation cursor, a token tied to that identity is produced when the
identity is healthy; unhealthy identities are skipped; afterwards the
cursor advances by the number of identities attempted, modulo the
collection size. -/

structure PoolState where
  identityCount : Nat
  cursor : Nat
deriving DecidableEq, Repr

def poolAcquire (st : PoolState) (k : Nat) (healthy : Nat → Bool)
    (mint : Nat → String) : List (Nat × String) × PoolState :=
  let slots := (List.range k).map (fun i => (st.cursor + i) % st.identityCount)
  ((slots.filter healthy).map (fun i => (i, mint i)),
   ⟨st.identityCount, (st.cursor + k) % st.identityCount⟩)

/-! ## Concrete data used by counterexamples and witnesses -/

/-- A `Season 1` subfolder node. -/
def season1Folder : FileNode := ⟨"S1", "Season 1", some FOLDER_MIME, none, none, none⟩

/-- A `Season 2` subfolder node. -/
def season2Folder : FileNode := ⟨"S2", "Season 2", some FOLDER_MIME, none, none, none⟩

def epS01E01 : FileNode := ⟨"f1", "S01E01.mkv", some "video/x-matroska", none, none, none⟩

def epS01E02 : FileNode := ⟨"f2", "S01E02.mkv", some "video/x-matroska", none, none, none⟩

def epS02E01 : FileNode := ⟨"f3", "S02E01.mkv", some "video/x-matroska", none, none, none⟩

/-- The folder tree of the claim: root `R` holds `Season 1` (with
`S01E01.mkv`, `S01E02.mkv`) and `Season 2` (with `S02E01.mkv`). -/
def demoDrive : String → List FileNode := fun fid =>
  if fid = "R" then [season1Folder, season2Folder]
  else if fid = "S1" then [epS01E01, epS01E02]
  else if fid = "S2" then [epS02E01]
  else []

def demoFiles3 : List FileNode := [epS01E01, epS01E02, epS02E01]

/-- The same three episode files placed directly in the root. -/
def demoFlatDrive : String → List FileNode := fun fid =>
  if fid = "R" then demoFiles3 else []

/-- A concrete stand-in for the abstract size formatter. -/
def fmt0 : Option String → String := fun _ => "Unknown"

def introFile : FileNode := ⟨"i1", "07 - Intro.mkv", some "video/mp4", none, none, none⟩

/-- A fetch oracle that always answers HTTP 429 with `Retry-After: 5`. -/
def retryOracle : Nat → FetchOutcome := fun _ => .resp 429 [("Retry-After", "5")] none

/-- A fetch oracle that always answers HTTP 404. -/
def os404 : Nat → FetchOutcome := fun _ => .resp 404 [] none

/-- A listing page holding one file and pointing at a next page. -/
def pageRepeat (f : FileNode) : Option ListPage := some ⟨some [f], some "tk"⟩

def pageFile : FileNode := ⟨"p0", "page.mkv", some "video/mp4", none, none, none⟩

/-- The files a page response contributes (`data.files` or nothing). -/
def pageFilesOf : Option ListPage → List FileNode
  | none => []
  | some d => d.files.getD []

/-- Whether the loop of `listAllFiles` requests a further page after this
response: it must be non-null, have a `files` array and carry a truthy
`nextPageToken`. -/
def continuesAfter : Option ListPage → Bool
  | none => false
  | some d =>
    match d.files, d.nextPageToken with
    | some _, some t => t ≠ ""
    | _, _ => false

def allHealthy : Nat → Bool := fun _ => true

def mintDemo : Nat → String := fun i => toString i

/-! ## Sanity checks of the embedding on concrete inputs -/

example : thumbReplace "https://x/img=s220-c" "400" = "https://x/img=s400-c" := by decide
example : thumbReplace "no-size-here" "400" = "no-size-here" := by decide
example : parseSeasonEpisode "S01E01.mkv" = some (1, 1) := by decide
example : parseSeasonEpisode "S02E01.mkv" = some (2, 1) := by decide
example : parseSeasonEpisode "07 - Intro.mkv" = some (1, 7) := by decide
example : parseSeasonEpisode "Show 3x07 final" = some (3, 7) := by decide
example : parseSeasonEpisode "Show [2.13] end" = some (2, 13) := by decide
example : parseSeasonEpisode "Season 2 Episode 4" = some (2, 4) := by decide
example : parseSeasonEpisode "Intro.mkv" = none := by decide
example : parseSeasonEpisode "1024 - Title.mkv" = none := by decide

/-! ## C2 — credential pool (spec-modelled) -/

/-- C2: with all identities healthy, `acquire(k)` for `k ≤ N` over `N ≥ 1`
identities returns exactly `k` tokens, their identity indices pairwise
distinct and each token minted for its own identity, and the rotation
cursor afterwards has advanced by `k` modulo `N`.  (Settled against the
spec-modelled `poolAcquire`, as the multi-identity pool is not part of
`src/`.) -/
theorem C2_acquire_round_robin (N k c : Nat) (_hN : 1 ≤ N) (hk : k ≤ N)
    (healthy : Nat → Bool) (mint : Nat → String)
    (hh : ∀ i, healthy i = true) :
    ((poolAcquire ⟨N, c % N⟩ k healthy mint).1.length = k) ∧
    (((poolAcquire ⟨N, c % N⟩ k healthy mint).1.map Prod.fst).Nodup) ∧
    (∀ p ∈ (poolAcquire ⟨N, c % N⟩ k healthy mint).1, p.2 = mint p.1) ∧
    ((poolAcquire ⟨N, c % N⟩ k healthy mint).2.cursor = (c % N + k) % N) := by
  have hfilter : ∀ l : List Nat, l.filter healthy = l :=
    fun l => List.filter_eq_self.mpr (fun a _ => hh a)
  refine ⟨?_, ?_, ?_, rfl⟩
  · simp [poolAcquire, hfilter]
  · have hnodup : ((List.range k).map (fun i => (c + i) % N)).Nodup := by
      refine List.Nodup.map_on ?_ (List.nodup_range k)
      intro i hi j hj hij
      have hi' : i < N := lt_of_lt_of_le (List.mem_range.mp hi) hk
      have hj' : j < N := lt_of_lt_of_le (List.mem_range.mp hj) hk
      have h2 : i % N = j % N := Nat.ModEq.add_left_cancel' c hij
      rwa [Nat.mod_eq_of_lt hi', Nat.mod_eq_of_lt hj'] at h2
    have hmap : ((poolAcquire ⟨N, c % N⟩ k healthy mint).1.map Prod.fst)
        = (List.range k).map (fun i => (c + i) % N) := by
      simp [poolAcquire, hfilter, List.map_map, Function.comp]
    rw [hmap]; exact hnodup
  · intro p hp
    simp only [poolAcquire, hfilter, List.mem_map] at hp
    obtain ⟨i, _, rfl⟩ := hp
    rfl

/-- C2 witness: a concrete healthy acquisition of 2 tokens over 3
identities returns exactly 2 tokens. -/
theorem C2_witness :
    (poolAcquire ⟨3, 7 % 3⟩ 2 allHealthy mintDemo).1.length = 2 :=
  (C2_acquire_round_robin 3 2 7 (by decide) (by decide) allHealthy mintDemo
    (fun _ => rfl)).1

/-! ## C3 — 429 handling -/

/-- C3 counterexample: on a 429 response carrying `Retry-After: 5`, the
client issues exactly one request — it does not retry — and performs no
wait at all, returning null at once.  This refutes the claim that the
call is retried after waiting at least 5 seconds. -/
theorem C3_counterexample :
    (gjson (.ok "tok") retryOracle).requests = 1 ∧
    ¬ 2 ≤ (gjson (.ok "tok") retryOracle).requests ∧
    (gjson (.ok "tok") retryOracle).waits = [] ∧
    (gjson (.ok "tok") retryOracle).result = .ok Json.null :=
  ⟨rfl, by decide, rfl, rfl⟩

/-- C3 (amended): on any HTTP 429 response, whatever its headers, the
client performs no retry and no wait: it issues exactly one request,
ignores any `Retry-After` header, and returns null to the caller. -/
theorem C3_429_no_retry_no_wait (tok : String) (hs : List (String × String))
    (b : Option Json) (os : Nat → FetchOutcome) (h : os 0 = .resp 429 hs b) :
    (gjson (.ok tok) os).requests = 1 ∧ (gjson (.ok tok) os).waits = [] ∧
    (gjson (.ok tok) os).result = .ok Json.null := by
  unfold gjson
  rw [h]
  norm_num

/-- C3 witness: the amended statement at the concrete 429 oracle. -/
theorem C3_witness :
    (gjson (.ok "t") retryOracle).requests = 1 ∧
    (gjson (.ok "t") retryOracle).waits = [] ∧
    (gjson (.ok "t") retryOracle).result = .ok Json.null :=
  C3_429_no_retry_no_wait "t" [("Retry-After", "5")] none retryOracle rfl

/-! ## C5 — token expiry safety margin -/

/-- C5 counterexample: when the token endpoint reports a lifetime of 0
seconds, `(data.expires_in || 3599)` silently replaces it by 3599, so the
stored expiry (3539000 ms past `now = 0`) is *later* than the reported
lifetime, not at least 30 seconds earlier, and the token is handed out. -/
theorem C5_counterexample :
    (getAccessToken 0 ⟨none, 0⟩ (.success "tok" (some 0))).1 = .ok "tok" ∧
    (getAccessToken 0 ⟨none, 0⟩ (.success "tok" (some 0))).2.exp = 3539000 ∧
    ¬ ((getAccessToken 0 ⟨none, 0⟩ (.success "tok" (some 0))).2.exp + 30000
        ≤ 0 + 0 * 1000) :=
  ⟨rfl, rfl, by decide⟩

/-- C5 (amended): whenever the token endpoint reports a *positive*
lifetime `v` (a zero or missing `expires_in` is replaced by a
3599-second default before the margin is applied), the stored expiry is
the reported expiry minus 60000 ms — hence at least 30 seconds earlier
than the reported lifetime — and `getAccessToken` reuses the cached
token only while the current time is strictly before the stored expiry,
otherwise performing a fresh refresh. -/
theorem C5_safety_margin (now : Int) (st : TokenCache) (r : RefreshOutcome)
    (tok : String) (v : Int) (hv : 0 < v) :
    ((doRefresh now (.success tok (some v))).2.exp = now + v * 1000 - 60000) ∧
    ((doRefresh now (.success tok (some v))).2.exp + 30000 ≤ now + v * 1000) ∧
    (∀ t, st.token = some t → t ≠ "" → now < st.exp →
        getAccessToken now st r = (.ok t, st)) ∧
    (st.exp ≤ now → getAccessToken now st r = doRefresh now r) := by
  have hv0 : v ≠ 0 := by omega
  have hexp : (doRefresh now (.success tok (some v))).2.exp
      = now + v * 1000 - 60000 := by
    simp [doRefresh, effectiveLifetime, hv0]
  refine ⟨hexp, by rw [hexp]; omega, ?_, ?_⟩
  · intro t ht htne hlt
    simp [getAccessToken, canReuse, ht, htne, hlt]
  · intro hle
    have : canReuse now st = false := by
      unfold canReuse
      cases h : st.token with
      | none => rfl
      | some t => simp; omega
    simp [getAccessToken, this]

/-- C5 witness: a fresh token with `now < exp` is reused unchanged. -/
theorem C5_witness :
    getAccessToken 0 ⟨some "tk", 5000⟩ .throws = (.ok "tk", ⟨some "tk", 5000⟩) :=
  (C5_safety_margin 0 ⟨some "tk", 5000⟩ .throws "tk" 3600 (by decide)).2.2.1
    "tk" rfl (by decide) (by decide)

/-! ## C9 — `gjson` null-on-failure discipline -/

/-- C9: `gjson` returns null (not an exception) when the token
acquisition throws, when the fetch itself throws, and on every non-2xx
status; and a non-null result only arises from a 2xx response whose
parsed body it is. -/
theorem C9_gjson_null_discipline (auth : Except Unit String)
    (os : Nat → FetchOutcome) :
    (auth = .error () → (gjson auth os).result = .ok Json.null) ∧
    (∀ tok, auth = .ok tok → os 0 = .throws →
        (gjson auth os).result = .ok Json.null) ∧
    (∀ tok st hs b, auth = .ok tok → os 0 = .resp st hs b →
        ¬ (200 ≤ st ∧ st ≤ 299) → (gjson auth os).result = .ok Json.null) ∧
    (∀ j, (gjson auth os).result = .ok j → (j = Json.null → False) →
        ∃ tok st hs, auth = .ok tok ∧ os 0 = .resp st hs (some j)
          ∧ 200 ≤ st ∧ st ≤ 299) := by
  refine ⟨?_, ?_, ?_, ?_⟩
  · intro h; rw [h]; rfl
  · intro tok ha h; rw [ha]; unfold gjson; rw [h]
  · intro tok st hs b ha h hst
    rw [ha]; unfold gjson; rw [h]
    simp [hst]
  · intro j hj hne
    rcases ha : auth with e | tok
    · rw [ha] at hj
      simp [gjson] at hj
      exact (hne hj.symm).elim
    · rw [ha] at hj
      rcases h0 : os 0 with _ | ⟨st, hs, b⟩
      · simp [gjson, h0] at hj
        exact (hne hj.symm).elim
      · by_cases hok : 200 ≤ st ∧ st ≤ 299
        · rcases b with _ | jb
          · simp [gjson, h0, hok] at hj
          · simp [gjson, h0, hok] at hj
            subst hj
            exact ⟨tok, st, hs, rfl, rfl, hok.1, hok.2⟩
        · simp [gjson, h0, hok] at hj
          exact (hne hj.symm).elim

/-- C9 witness: a 404 response yields null. -/
theorem C9_witness : (gjson (.ok "t") os404).result = .ok Json.null :=
  (C9_gjson_null_discipline (.ok "t") os404).2.2.1 "t" 404 [] none rfl rfl
    (by omega)

/-! ## C10 — failed refresh resets the cache -/

/-- C10: whenever the refresh exchange fails (thrown fetch or non-ok
response) and the cached token was not reusable, `getAccessToken`
answers the error with the cache reset to `{ token: null, exp: 0 }`; and
from that reset state any later call can only return a token produced by
its own (fresh) exchange — never one cached before the failure. -/
theorem C10_failed_refresh_resets (now : Int) (st : TokenCache)
    (r : RefreshOutcome) (hstale : canReuse now st = false)
    (hfail : r = .throws ∨ r = .httpError) :
    getAccessToken now st r = (.error (), ⟨none, 0⟩) ∧
    (∀ (now2 : Int) (r2 : RefreshOutcome) (t : String),
        (getAccessToken now2 ⟨none, 0⟩ r2).1 = .ok t →
        ∃ e, r2 = .success t e) := by
  constructor
  · unfold getAccessToken
    rw [hstale]
    cases hfail with
    | inl h => rw [h]; rfl
    | inr h => rw [h]; rfl
  · intro now2 r2 t ht
    have hre : canReuse now2 ⟨none, 0⟩ = false := rfl
    unfold getAccessToken at ht
    rw [hre] at ht
    cases r2 with
    | throws => exact absurd ht (by simp [doRefresh])
    | httpError => exact absurd ht (by simp [doRefresh])
    | success tok e =>
      have : tok = t := by
        simpa [doRefresh] using ht
      exact ⟨e, by rw [this]⟩

/-- C10 witness: a stale cache plus a thrown refresh ends in the error
with the reset state. -/
theorem C10_witness :
    getAccessToken 1000000 ⟨some "old", 999999⟩ .throws = (.error (), ⟨none, 0⟩) :=
  (C10_failed_refresh_resets 1000000 ⟨some "old", 999999⟩ .throws (by decide)
    (Or.inl rfl)).1

/-! ## C4 — pagination loop -/

/-- The loop's accumulator distributes over the transcript. -/
theorem listAllLoop_acc (t : List (Option ListPage)) (acc : List FileNode) :
    listAllLoop t acc = acc ++ listAllLoop t [] := by
  induction t generalizing acc with
  | nil => simp [listAllLoop]
  | cons o rest ih =>
    cases o with
    | none => simp [listAllLoop]
    | some d =>
      cases hf : d.files with
      | none => simp [listAllLoop, hf]
      | some fs =>
        cases ht : d.nextPageToken with
        | none => simp [listAllLoop, hf, ht]
        | some tk =>
          by_cases h : tk = ""
          · simp [listAllLoop, hf, ht, h]
          · simp only [listAllLoop, hf, ht, h, if_neg]
            rw [ih (acc ++ fs), ih ([] ++ fs)]
            simp

/-- A transcript of `n` one-file pages, each carrying a next-page cursor,
makes the loop accumulate `n` files. -/
theorem listAllFiles_replicate (f : FileNode) (n : Nat) :
    (listAllFiles (List.replicate n (pageRepeat f))).length = n := by
  induction n with
  | zero => rfl
  | succ m ih =>
    show (listAllLoop (pageRepeat f :: List.replicate m (pageRepeat f)) []).length
        = m + 1
    have : listAllLoop (pageRepeat f :: List.replicate m (pageRepeat f)) []
        = listAllLoop (List.replicate m (pageRepeat f)) ([] ++ [f]) := by
      simp [listAllLoop, pageRepeat]
    rw [this, listAllLoop_acc]
    have ih2 : (listAllLoop (List.replicate m (pageRepeat f)) []).length = m := ih
    simp [ih2]

/-- C4 counterexample: there is no fixed bound on the size of the
accumulator `listAllFiles` returns — for every candidate bound a
transcript of enough cursor-carrying pages exceeds it.  The loop's only
guards are the next-page cursor and response well-formedness; no hard
ceiling exists. -/
theorem C4_counterexample :
    ¬ ∃ B : Nat, ∀ t : List (Option ListPage), (listAllFiles t).length ≤ B := by
  rintro ⟨B, hB⟩
  have h := hB (List.replicate (B + 1) (pageRepeat pageFile))
  rw [listAllFiles_replicate] at h
  omega

/-- C4 (amended): the lister requests a further page exactly while the
previous response is non-null, carries a `files` array and a truthy
next-page cursor — with no ceiling on the accumulated count, which
therefore exceeds every fixed bound on suitable transcripts. -/
theorem C4_pagination_unbounded :
    (∀ (o : Option ListPage) (rest : List (Option ListPage)),
        listAllFiles (o :: rest)
          = pageFilesOf o ++ (if continuesAfter o then listAllFiles rest else [])) ∧
    (∀ B : Nat, ∃ t : List (Option ListPage), B < (listAllFiles t).length) := by
  constructor
  · intro o rest
    cases o with
    | none => simp [listAllFiles, listAllLoop, pageFilesOf, continuesAfter]
    | some d =>
      cases hf : d.files with
      | none => simp [listAllFiles, listAllLoop, pageFilesOf, continuesAfter, hf]
      | some fs =>
        cases ht : d.nextPageToken with
        | none => simp [listAllFiles, listAllLoop, pageFilesOf, continuesAfter, hf, ht]
        | some tk =>
          by_cases h : tk = ""
          · simp [listAllFiles, listAllLoop, pageFilesOf, continuesAfter, hf, ht, h]
          · simp only [listAllFiles, listAllLoop, pageFilesOf, continuesAfter, hf, ht, h,
              if_neg, Option.getD]
            rw [listAllLoop_acc]
            simp [h]
  · intro B
    refine ⟨List.replicate (B + 1) (pageRepeat pageFile), ?_⟩
    rw [listAllFiles_replicate]
    omega

/-! ## C1 — series building over the folder tree -/

theorem length_insertVideo (v : Video) (l : List Video) :
    (insertVideo v l).length = l.length + 1 := by
  induction l with
  | nil => rfl
  | cons w ws ih =>
    simp only [insertVideo]
    split
    · simp
    · simp [ih]

theorem mem_insertVideo (a v : Video) (l : List Video) :
    a ∈ insertVideo v l ↔ a = v ∨ a ∈ l := by
  induction l with
  | nil => simp [insertVideo]
  | cons w ws ih =>
    simp only [insertVideo]
    split
    · simp [List.mem_cons]
    · simp [List.mem_cons, ih]
      tauto

theorem length_sortLoop (l acc : List Video) :
    (l.foldl (fun acc v => insertVideo v acc) acc).length = acc.length + l.length := by
  induction l generalizing acc with
  | nil => simp
  | cons v vs ih =>
    simp only [List.foldl_cons, List.length_cons]
    rw [ih, length_insertVideo]
    omega

theorem mem_sortLoop (a : Video) (l acc : List Video) :
    a ∈ l.foldl (fun acc v => insertVideo v acc) acc ↔ a ∈ l ∨ a ∈ acc := by
  induction l generalizing acc with
  | nil => simp
  | cons v vs ih =>
    simp only [List.foldl_cons]
    rw [ih]
    simp [mem_insertVideo]
    tauto

theorem length_sortVideos (l : List Video) : (sortVideos l).length = l.length := by
  unfold sortVideos
  rw [length_sortLoop]
  simp

theorem mem_sortVideos (a : Video) (l : List Video) : a ∈ sortVideos l ↔ a ∈ l := by
  unfold sortVideos
  rw [mem_sortLoop]
  simp

/-- Every file of `l` contributes (at its position) an entry whose id and
title are derived from it. -/
theorem exists_video_of_mem_enumFrom (n : Nat) (l : List FileNode) (f : FileNode)
    (hf : f ∈ l) :
    ∃ v ∈ (List.enumFrom n l).map (fun p => mkVideo p.2 p.1),
      v.id = "gdrive:" ++ f.id ∧ v.title = f.name := by
  induction l generalizing n with
  | nil => cases hf
  | cons g gs ih =>
    rcases List.mem_cons.mp hf with h | h
    · subst h
      exact ⟨mkVideo f n, by simp [List.enumFrom], rfl, rfl⟩
    · obtain ⟨v, hv, hids⟩ := ih (n + 1) h
      refine ⟨v, ?_, hids⟩
      simp only [List.enumFrom, List.map_cons, List.mem_cons]
      exact Or.inr hv

/-- C1 counterexample: serving the series meta for the claimed tree —
root `R` containing subfolders `Season 1` (with `S01E01.mkv` and
`S01E02.mkv`) and `Season 2` (with `S02E01.mkv`) — yields an *empty*
video list, not the three entries `(1,1),(1,2),(2,1)`: the builder never
descends into subfolders, so no playable entity below the direct
children appears. -/
theorem C1_counterexample :
    runSeriesMeta fmt0 demoDrive "R" "Hindi Web Series"
        = .ok (.found (.seriesMeta "gdrive-folder:R" "Hindi Web Series" imgFallback none []),
            [.cacheGet "meta:gdrive-folder:R", .cacheSet "meta:gdrive-folder:R"]) ∧
    demoDrive "R" = [season1Folder, season2Folder] ∧
    demoDrive "S1" = [epS01E01, epS01E02] ∧
    demoDrive "S2" = [epS02E01] ∧
    isVideoFile epS01E01 = true ∧ isVideoFile epS01E02 = true ∧
    isVideoFile epS02E01 = true ∧
    (MetaVal.videosOf
        (.seriesMeta "gdrive-folder:R" "Hindi Web Series" imgFallback none [])).length
      = 0 :=
  ⟨rfl, rfl, rfl, rfl, rfl, rfl, rfl, rfl⟩

/-- C1 (amended): the series builder lists only the immediate children of
the requested folder and does not recurse.  Every playable (video) entity
among the direct children yields exactly one entry, with its id and title
preserved, ordered by `(season, episode)`; placing `S01E01.mkv`,
`S01E02.mkv`, `S02E01.mkv` directly in the root yields exactly three
entries ordered `(1,1),(1,2),(2,1)`. -/
theorem C1_direct_children_flattening :
    (runSeriesMeta fmt0 demoFlatDrive "R" "Hindi Web Series"
        = .ok (.found (.seriesMeta "gdrive-folder:R" "Hindi Web Series" imgFallback none
            [⟨"gdrive:f1", "S01E01.mkv", 1, 1, none, none⟩,
             ⟨"gdrive:f2", "S01E02.mkv", 1, 2, none, none⟩,
             ⟨"gdrive:f3", "S02E01.mkv", 2, 1, none, none⟩]),
            [.cacheGet "meta:gdrive-folder:R", .cacheSet "meta:gdrive-folder:R"])) ∧
    (∀ cs : List FileNode, (seriesVideos cs).length = (cs.filter isVideoFile).length) ∧
    (∀ (cs : List FileNode) (f : FileNode), f ∈ cs.filter isVideoFile →
        ∃ v ∈ seriesVideos cs, v.id = "gdrive:" ++ f.id ∧ v.title = f.name) := by
  refine ⟨rfl, ?_, ?_⟩
  · intro cs
    unfold seriesVideos
    rw [length_sortVideos, List.length_map, List.enum_length]
  · intro cs f hf
    obtain ⟨v, hv, hids⟩ :=
      exists_video_of_mem_enumFrom 0 (cs.filter isVideoFile) f hf
    refine ⟨v, ?_, hids⟩
    unfold seriesVideos
    rw [mem_sortVideos]
    exact hv

/-- C1 witness: the direct video file `S01E01.mkv` appears in the built
series with its id and title preserved. -/
theorem C1_witness :
    ∃ v ∈ seriesVideos demoFiles3, v.id = "gdrive:" ++ epS01E01.id
      ∧ v.title = epS01E01.name :=
  C1_direct_children_flattening.2.2 demoFiles3 epS01E01 (by decide)

/-! ## C6 — leading numeric token -/

/-- C6: for any file name in which none of the four season/episode marker
patterns occurs but a leading 1-3 digit token followed by `.`, `_` or a
space does, `parseSeasonEpisode` yields season 1 and that number as the
episode, and the series metadata entry for such a file carries exactly
those values — not the 1-indexed positional fallback. -/
theorem C6_leading_number_inference (name : String) (n : Nat)
    (h1 : scanPos p1At name.toList = none)
    (h2 : scanPos p2At name.toList = none)
    (h3 : scanPos p3At name.toList = none)
    (h4 : scanPos p4At name.toList = none)
    (h5 : leadingEpisode name.toList = some n) :
    parseSeasonEpisode name = some (1, n) ∧
    ∀ (f : FileNode) (i : Nat), f.name = name →
      (mkVideo f i).season = 1 ∧ (mkVideo f i).episode = n := by
  have hp : parseSeasonEpisode name = some (1, n) := by
    unfold parseSeasonEpisode
    rw [h1, h2, h3, h4, h5]
  refine ⟨hp, fun f i hf => ?_⟩
  constructor
  · simp [mkVideo, hf, hp]
  · simp [mkVideo, hf, hp]

/-- C6 witness: `07 - Intro.mkv` is assigned season 1, episode 7 at any
position in its folder. -/
theorem C6_witness :
    (mkVideo introFile 0).season = 1 ∧ (mkVideo introFile 0).episode = 7 :=
  (C6_leading_number_inference "07 - Intro.mkv" 7 (by decide) (by decide)
    (by decide) (by decide) (by decide)).2 introFile 0 rfl

/-! ## C7 — cache failures never surface -/

/-- With every oracle call succeeding, `handleMeta` answers normally for
any cache backend: no cache error can surface. -/
theorem handleMeta_no_error (cache : CacheBackend MetaVal)
    (fmt : Option String → String) (fo : Option FolderInfo) (cs : List FileNode)
    (ff : Option FileNode) (mid : String) :
    ∃ r, handleMeta cache fmt (.ok fo) (.ok cs) (.ok ff) mid = .ok r := by
  simp only [handleMeta]
  split
  · exact ⟨_, rfl⟩
  · split
    · exact ⟨_, rfl⟩
    · split
      · cases fo
        · exact ⟨_, rfl⟩
        · exact ⟨_, rfl⟩
      · cases ff
        · exact ⟨_, rfl⟩
        · exact ⟨_, rfl⟩

/-- C7: with a cache backend whose every `get`/`set` throws, both
handlers behave exactly as with the silent mock backend — every cache
failure is observed as a miss or no-op — and the meta handler still
completes (returns a response, not an exception) whenever its network
calls succeed.  `handleCatalog` is total by construction: every one of
its failure sources is caught in the source. -/
theorem C7_throwing_cache_is_absorbed
    (fmt : Option String → String) (listing : Except Unit (List FileNode))
    (id : String) (search : Option String)
    (folderFetch : Except Unit (Option FolderInfo))
    (contents : Except Unit (List FileNode))
    (fileFetch : Except Unit (Option FileNode)) (mid : String) :
    (handleCatalog (throwingCache (List MetaPreview)) fmt listing id search
        = handleCatalog (nullCache (List MetaPreview)) fmt listing id search) ∧
    (handleMeta (throwingCache MetaVal) fmt folderFetch contents fileFetch mid
        = handleMeta (nullCache MetaVal) fmt folderFetch contents fileFetch mid) ∧
    (∀ (fo : Option FolderInfo) (cs : List FileNode) (ff : Option FileNode),
        ∃ r, handleMeta (throwingCache MetaVal) fmt (.ok fo) (.ok cs) (.ok ff) mid
          = .ok r) :=
  ⟨rfl, rfl, fun fo cs ff => handleMeta_no_error (throwingCache MetaVal) fmt fo cs ff mid⟩

/-! ## C8 — cache consulted first, populated only on non-empty listings -/

/-- C8: on every catalog request the very first effect is the cache
lookup (so the cache is consulted before any network call), an empty
listing is never written back (the cache is left unchanged), and any
write that does happen comes from a non-empty listing. -/
theorem C8_cache_first_nonempty_writes
    (cache : CacheBackend (List MetaPreview)) (fmt : Option String → String)
    (listing : Except Unit (List FileNode)) (id : String) (search : Option String) :
    ((handleCatalog cache fmt listing id search).events.head?
        = some (.cacheGet (catalogCacheKey id search))) ∧
    (∀ files, listing = .ok files → files = [] →
        ∀ k, CacheEvent.cacheSet k ∉ (handleCatalog cache fmt listing id search).events) ∧
    (∀ k, CacheEvent.cacheSet k ∈ (handleCatalog cache fmt listing id search).events →
        ∃ files, listing = .ok files ∧ files ≠ []) := by
  rcases htg : tryGet cache (catalogCacheKey id search) with _ | v
  · by_cases hnet : catalogDoesNet id search
    · rcases listing with e | files
      · refine ⟨?_, ?_, ?_⟩
        · simp [handleCatalog, htg, hnet]
        · intro files h; exact absurd h (by simp)
        · intro k hk
          simp [handleCatalog, htg, hnet] at hk
      · by_cases hlen : 0 < files.length
        · refine ⟨?_, ?_, ?_⟩
          · simp [handleCatalog, htg, hnet, hlen]
          · intro fs hfs hnil k
            have hfe : files = fs := by injection hfs
            subst hfe
            subst hnil
            simp at hlen
          · intro k hk
            refine ⟨files, rfl, ?_⟩
            intro hnil
            subst hnil
            simp at hlen
        · refine ⟨?_, ?_, ?_⟩
          · simp [handleCatalog, htg, hnet, hlen]
          · intro fs hfs hnil k
            simp [handleCatalog, htg, hnet, hlen]
          · intro k hk
            simp [handleCatalog, htg, hnet, hlen] at hk
    · refine ⟨?_, ?_, ?_⟩
      · simp [handleCatalog, htg, hnet]
      · intro fs hfs hnil k
        simp [handleCatalog, htg, hnet]
      · intro k hk
        simp [handleCatalog, htg, hnet] at hk
  · refine ⟨?_, ?_, ?_⟩
    · simp [handleCatalog, htg]
    · intro fs hfs hnil k
      simp [handleCatalog, htg]
    · intro k hk
      simp [handleCatalog, htg] at hk

/-- C8 witness: on a miss with an empty listing, no write event occurs. -/
theorem C8_witness :
    CacheEvent.cacheSet "catalog:gdrive_recents"
      ∉ (handleCatalog (nullCache (List MetaPreview)) fmt0 (.ok []) "gdrive_recents"
          none).events :=
  (C8_cache_first_nonempty_writes (nullCache (List MetaPreview)) fmt0 (.ok [])
    "gdrive_recents" none).2.1 [] rfl rfl "catalog:gdrive_recents"
